import Mathlib

/-!
Shallow embedding of `deno_package_json` (`src/lib.rs`): the package.json
manifest data model, the manifest builder (`PackageJson::load_from_value`,
`PackageJson::load_from_string`), the exports sugar normalizer
(`is_conditional_exports_main_sugar`), entrypoint selection
(`PackageJson::main`), the dependency resolver (`parse_entry`,
`parse_dep_entry_name_and_raw_version`, `get_map`), and serde serialization
of the manifest record.

JSON values are modelled by an inductive tree; JSON numbers are modelled as
integers whose canonical textual rendering is `toString`, matching the
display form of `serde_json::Number` on integral values.  JSON objects are
ordered association lists with distinct keys, matching `serde_json::Map`
with order preserved.  The external version-requirement grammar
(`deno_semver::VersionReq::parse_from_npm`) is an opaque parameter of the
dependency resolver: every theorem about it holds for an arbitrary parser.
The abrupt process halt in the exports normalizer on mixed key styles is
modelled as `Except.error ()`.
-/

namespace DenoPackageJson

/-- `str::is_empty`, computed on the character list. -/
def strIsEmpty (s : String) : Bool :=
  s.data.isEmpty

/-- `str::starts_with`, computed on the character lists. -/
def strStartsWith (s p : String) : Bool :=
  p.data.isPrefixOf s.data

/-- Dropping the first `n` characters of a string; for the ASCII prefixes
used here this is exactly `str::strip_prefix` after a successful
`starts_with` check. -/
def strDrop (s : String) (n : Nat) : String :=
  ⟨s.data.drop n⟩

/-- The characters before the first character failing `p`; used for
`str::split(c).next()`, the text before the first separator. -/
def strTakeWhile (s : String) (p : Char → Bool) : String :=
  ⟨s.data.takeWhile p⟩

/-- `str::trim` (whitespace modelled as ASCII whitespace). -/
def strTrim (s : String) : String :=
  ⟨(((s.data.dropWhile Char.isWhitespace).reverse).dropWhile Char.isWhitespace).reverse⟩

/-- Generic JSON tree (`serde_json::Value`), object key order preserved. -/
inductive JValue where
  | null
  | bool (b : Bool)
  | num (n : Int)
  | str (s : String)
  | arr (elems : List JValue)
  | obj (entries : List (String × JValue))

/-- `serde_json::Map::remove`: take out the first entry with the given key,
returning its value (if any) and the remaining entries. -/
def jremove (key : String) : List (String × JValue) → Option JValue × List (String × JValue)
  | [] => (none, [])
  | (k, v) :: rest =>
    if k = key then (some v, rest)
    else
      let r := jremove key rest
      (r.1, (k, v) :: r.2)

/-- `map_string` from `load_from_value`: strings pass through, numbers are
coerced to their canonical decimal text, everything else is dropped. -/
def map_string : JValue → Option String
  | .str s => some s
  | .num n => some (toString n)
  | _ => none

/-- `map_object` from `load_from_value`. -/
def map_object : JValue → Option (List (String × JValue))
  | .obj entries => some entries
  | _ => none

/-- `map_array` from `load_from_value`. -/
def map_array : JValue → Option (List JValue)
  | .arr elems => some elems
  | _ => none

/-- `parse_string_map` from `load_from_value`.  The input object's keys are
distinct (JSON parsing deduplicates them), so the source's re-insertion
into a fresh `IndexMap` is the same as filtering the entries in order. -/
def parse_string_map (v : JValue) : Option (List (String × String)) :=
  match v with
  | .obj entries =>
    some (entries.filterMap (fun kv => (map_string kv.2).map (fun s => (kv.1, s))))
  | _ => none

/-- `parse_string_array` from `load_from_value`. -/
def parse_string_array (v : JValue) : Option (List String) :=
  (map_array v).map (fun elems => elems.filterMap map_string)

/-- The sugar-style classification of one exports key
(`cur_is_conditional_sugar` in `is_conditional_exports_main_sugar`). -/
def sugar_style (key : String) : Bool :=
  strIsEmpty key || !(strStartsWith key ".")

/-- `is_conditional_exports_main_sugar`.  Strings and arrays are sugar;
null and non-objects are not; for an object, the first key establishes the
style and every later key must match it, an abrupt halt (`Except.error ()`)
occurring on a mismatch. -/
def is_conditional_exports_main_sugar : JValue → Except Unit Bool
  | .str _ => .ok true
  | .arr _ => .ok true
  | .null => .ok false
  | .bool _ => .ok false
  | .num _ => .ok false
  | .obj [] => .ok false
  | .obj ((k, _) :: rest) =>
    if rest.all (fun kv => sugar_style kv.1 == sugar_style k) then .ok (sugar_style k)
    else .error ()

/-- The exports-processing closure in `load_from_value`: sugar wraps the
value under `"."`; otherwise `as_object()?` keeps an object as-is and turns
any other shape into an absent field. -/
def normalize_exports (exports : JValue) : Except Unit (Option (List (String × JValue))) :=
  match is_conditional_exports_main_sugar exports with
  | .error e => .error e
  | .ok true => .ok (some [(".", exports)])
  | .ok false => .ok (map_object exports)

/-- `enum NodeModuleKind`. -/
inductive NodeModuleKind where
  | Esm
  | Cjs
deriving DecidableEq, Repr

/-- `struct PackageJson` (the `resolved_deps` memo cell is represented by
the resolver function below rather than stored state). -/
structure PackageJson where
  exports : Option (List (String × JValue))
  imports : Option (List (String × JValue))
  bin : Option JValue
  main : Option String
  module : Option String
  name : Option String
  version : Option String
  path : String
  typ : String
  types : Option String
  dependencies : Option (List (String × String))
  dev_dependencies : Option (List (String × String))
  scripts : Option (List (String × String))
  workspaces : Option (List String)

/-- The `type` normalization in `load_from_value`: exactly `"module"` and
`"commonjs"` pass through, everything else (or absence) becomes `"none"`. -/
def type_normalize : Option JValue → String
  | some (.str t) => if t ≠ "module" ∧ t ≠ "commonjs" then "none" else t
  | some _ => "none"
  | none => "none"

/-- The `exports` handling in `load_from_value`: an absent key is an absent
field, a present value goes through the sugar normalizer. -/
def exports_of_val : Option JValue → Except Unit (Option (List (String × JValue)))
  | none => .ok none
  | some e => normalize_exports e

/-- The all-default manifest returned by `load_from_string` for blank
source text. -/
def empty_package_json (path : String) : PackageJson :=
  { path := path, main := none, name := none, version := none, module := none,
    typ := "none", types := none, exports := none, imports := none, bin := none,
    dependencies := none, dev_dependencies := none, scripts := none,
    workspaces := none }

/-- `PackageJson::load_from_value`.  `Except.error ()` models the abrupt
halt raised by the exports normalizer on mixed key styles. -/
def load_from_value (path : String) (v : JValue) : Except Unit PackageJson :=
  let m0 : List (String × JValue) := match v with
    | .obj entries => entries
    | _ => []
  let r1 := jremove "imports" m0
  let imports_val := r1.1
  let r2 := jremove "main" r1.2
  let main_val := r2.1
  let r3 := jremove "module" r2.2
  let module_val := r3.1
  let r4 := jremove "name" r3.2
  let name_val := r4.1
  let r5 := jremove "version" r4.2
  let version_val := r5.1
  let r6 := jremove "type" r5.2
  let type_val := r6.1
  let r7 := jremove "bin" r6.2
  let bin := r7.1
  let r8 := jremove "exports" r7.2
  match exports_of_val r8.1 with
  | .error e => .error e
  | .ok exports =>
    let imports := imports_val.bind map_object
    let main := main_val.bind map_string
    let name := name_val.bind map_string
    let version := version_val.bind map_string
    let module := module_val.bind map_string
    let r9 := jremove "dependencies" r8.2
    let dependencies := r9.1.bind parse_string_map
    let r10 := jremove "devDependencies" r9.2
    let dev_dependencies := r10.1.bind parse_string_map
    let r11 := jremove "scripts" r10.2
    let scripts := r11.1.bind parse_string_map
    let typ : String := type_normalize type_val
    let r12 := jremove "typings" r11.2
    let types_raw : Option JValue := match r12.1 with
      | some t => some t
      | none => (jremove "types" r12.2).1
    let types := types_raw.bind map_string
    let m13 : List (String × JValue) := match r12.1 with
      | some _ => r12.2
      | none => (jremove "types" r12.2).2
    let r13 := jremove "workspaces" m13
    let workspaces := r13.1.bind parse_string_array
    .ok { path := path, main := main, name := name, version := version,
          module := module, typ := typ, types := types, exports := exports,
          imports := imports, bin := bin, dependencies := dependencies,
          dev_dependencies := dev_dependencies, scripts := scripts,
          workspaces := workspaces }

/-- Outcome of `PackageJson::load_from_string`: success, a JSON
deserialization failure, or the abrupt exports halt. -/
inductive LoadResult where
  | ok (p : PackageJson)
  | deserializeError
  | panicked

/-- `PackageJson::load_from_string`, parameterized by the external JSON
grammar parser (`serde_json::from_str`). -/
def load_from_string (parseJson : String → Option JValue) (path source : String) : LoadResult :=
  if strIsEmpty (strTrim source) then .ok (empty_package_json path)
  else
    match parseJson source with
    | none => .deserializeError
    | some v =>
      match load_from_value path v with
      | .ok p => .ok p
      | .error _ => .panicked

/-- `PackageJson::main`: pick `module` (falling back to `main`) for an ESM
referrer on a `"module"`-typed manifest, otherwise `main`; trim the result
and drop it if empty. -/
def PackageJson.main_entrypoint (p : PackageJson) (referrer_kind : NodeModuleKind) : Option String :=
  let m := if referrer_kind = NodeModuleKind.Esm ∧ p.typ = "module"
           then p.module.orElse (fun _ => p.main)
           else p.main
  match m.map strTrim with
  | some s => if strIsEmpty s then none else some s
  | none => none

/-- `enum PackageJsonDepWorkspaceReq`, parameterized by the external parsed
version-requirement type. -/
inductive PackageJsonDepWorkspaceReq (V : Type) where
  | Tilde
  | Caret
  | VersionReq (req : V)
deriving DecidableEq, Repr

/-- `enum PackageJsonDepValue`; `Req` carries the `PackageReq` name and
parsed requirement. -/
inductive PackageJsonDepValue (V : Type) where
  | Req (name : String) (version_req : V)
  | Workspace (w : PackageJsonDepWorkspaceReq V)
deriving DecidableEq, Repr

/-- `enum PackageJsonDepValueParseError`, parameterized by the external
parser's error type. -/
inductive PackageJsonDepValueParseError (E : Type) where
  | VersionReq (err : E)
  | Unsupported (scheme : String)
deriving DecidableEq, Repr

/-- `parse_dep_entry_name_and_raw_version` splits `value` on the LAST `@`
after an `npm:` prefix; this helper finds that last occurrence, as
`str::rsplit_once` does. -/
def rsplitOnceAux (c : Char) : List Char → Option (List Char × List Char)
  | [] => none
  | x :: xs =>
    match rsplitOnceAux c xs with
    | some (pre, post) => some (x :: pre, post)
    | none => if x = c then some ([], xs) else none

/-- `str::rsplit_once`: split around the last occurrence of a character. -/
def rsplitOnce (c : Char) (s : String) : Option (String × String) :=
  match rsplitOnceAux c s.toList with
  | some (pre, post) => some (pre.asString, post.asString)
  | none => none

/-- `parse_dep_entry_name_and_raw_version`: resolve npm package aliases of
the form `npm:name@version`. -/
def parse_dep_entry_name_and_raw_version (key value : String) : String × String :=
  if strStartsWith value "npm:" then
    let package_and_version := strDrop value 4
    match rsplitOnce '@' package_and_version with
    | some (name, version) =>
      if strIsEmpty name then (package_and_version, "*") else (name, version)
    | none => (package_and_version, "*")
  else
    (key, value)

/-- `parse_entry`, parameterized by the external
`VersionReq::parse_from_npm` (`parseNpmReq`). -/
def parse_entry {E V : Type} (parseNpmReq : String → Except E V) (key value : String) :
    Except (PackageJsonDepValueParseError E) (PackageJsonDepValue V) :=
  if strStartsWith value "workspace:" then
    let workspace_key := strDrop value 10
    match workspace_key with
    | "~" => .ok (.Workspace .Tilde)
    | "^" => .ok (.Workspace .Caret)
    | _ =>
      match parseNpmReq workspace_key with
      | .ok req => .ok (.Workspace (.VersionReq req))
      | .error err => .error (.VersionReq err)
  else if strStartsWith value "file:" || strStartsWith value "git:" ||
          strStartsWith value "http:" || strStartsWith value "https:" then
    .error (.Unsupported (strTakeWhile value (fun c => c ≠ ':')))
  else
    let nv := parse_dep_entry_name_and_raw_version key value
    match parseNpmReq nv.2 with
    | .ok req => .ok (.Req nv.1 req)
    | .error err => .error (.VersionReq err)

/-- `get_map`: classify each raw dependency entry, inserting under its
alias only if the alias is not present yet (`entry(..).or_insert_with`). -/
def get_map_go {E V : Type} (parseNpmReq : String → Except E V) :
    List (String × String) →
    List (String × Except (PackageJsonDepValueParseError E) (PackageJsonDepValue V)) →
    List (String × Except (PackageJsonDepValueParseError E) (PackageJsonDepValue V))
  | [], acc => acc
  | (key, value) :: rest, acc =>
    match acc.lookup key with
    | some _ => get_map_go parseNpmReq rest acc
    | none => get_map_go parseNpmReq rest (acc ++ [(key, parse_entry parseNpmReq key value)])

/-- `get_map` from `resolve_local_package_json_deps`. -/
def get_map {E V : Type} (parseNpmReq : String → Except E V)
    (deps : Option (List (String × String))) :
    List (String × Except (PackageJsonDepValueParseError E) (PackageJsonDepValue V)) :=
  match deps with
  | none => []
  | some deps => get_map_go parseNpmReq deps []

/-- `struct PackageJsonDeps`. -/
structure PackageJsonDeps (E V : Type) where
  dependencies : List (String × Except (PackageJsonDepValueParseError E) (PackageJsonDepValue V))
  dev_dependencies : List (String × Except (PackageJsonDepValueParseError E) (PackageJsonDepValue V))

/-- `PackageJson::resolve_local_package_json_deps` (the `OnceLock`
memoization is an execution detail; the computed value is this). -/
def PackageJson.resolve_local_package_json_deps {E V : Type}
    (parseNpmReq : String → Except E V) (p : PackageJson) : PackageJsonDeps E V :=
  { dependencies := get_map parseNpmReq p.dependencies,
    dev_dependencies := get_map parseNpmReq p.dev_dependencies }

/-- Serialization of an optional string field (serde: `None` is `null`). -/
def serialize_opt_str : Option String → JValue
  | none => .null
  | some s => .str s

/-- Serialization of an optional object field. -/
def serialize_opt_obj : Option (List (String × JValue)) → JValue
  | none => .null
  | some entries => .obj entries

/-- Serialization of an optional string map field. -/
def serialize_opt_str_map : Option (List (String × String)) → JValue
  | none => .null
  | some entries => .obj (entries.map (fun kv => (kv.1, .str kv.2)))

/-- Serialization of the optional workspaces list. -/
def serialize_opt_str_list : Option (List String) → JValue
  | none => .null
  | some elems => .arr (elems.map .str)

/-- serde `Serialize` for `PackageJson`: fields in declaration order,
camelCase names, `type` renamed, `path` and the memoized dependency set
skipped, absent options as `null`. -/
def serialize (p : PackageJson) : List (String × JValue) :=
  [("exports", serialize_opt_obj p.exports),
   ("imports", serialize_opt_obj p.imports),
   ("bin", match p.bin with | none => .null | some b => b),
   ("main", serialize_opt_str p.main),
   ("module", serialize_opt_str p.module),
   ("name", serialize_opt_str p.name),
   ("version", serialize_opt_str p.version),
   ("type", .str p.typ),
   ("types", serialize_opt_str p.types),
   ("dependencies", serialize_opt_str_map p.dependencies),
   ("devDependencies", serialize_opt_str_map p.dev_dependencies),
   ("scripts", serialize_opt_str_map p.scripts),
   ("workspaces", serialize_opt_str_list p.workspaces)]

/-- Spec-side description of entrypoint fields: the trimmed value of an
optional field when present and non-blank after trimming, absent
otherwise. -/
def trim_nonblank : Option String → Option String
  | none => none
  | some s => if strIsEmpty (strTrim s) then none else some (strTrim s)

/-- Spec-side restatement of the per-entry dependency classification, built
from the spec's words: (1) a `workspace:` value classifies its remainder
(`~` tilde, `^` caret, otherwise a parsed requirement whose parse failure
is the entry's failure); (2) a `file:`/`git:`/`http:`/`https:` value is
Unsupported with the text before the first `:`; (3) an `npm:` value is
stripped and split on the last `@`, an empty name portion (or a remainder
without `@`, which has no version portion) making the whole remainder the
name with requirement `*`; (4) otherwise the alias key is the name and the
value is the requirement string. -/
def parse_entry_spec {E V : Type} (parseNpmReq : String → Except E V) (key value : String) :
    Except (PackageJsonDepValueParseError E) (PackageJsonDepValue V) :=
  if strStartsWith value "workspace:" then
    match strDrop value 10 with
    | "~" => .ok (.Workspace .Tilde)
    | "^" => .ok (.Workspace .Caret)
    | _ =>
      match parseNpmReq (strDrop value 10) with
      | .ok req => .ok (.Workspace (.VersionReq req))
      | .error err => .error (.VersionReq err)
  else if strStartsWith value "file:" || strStartsWith value "git:" ||
          strStartsWith value "http:" || strStartsWith value "https:" then
    .error (.Unsupported (strTakeWhile value (fun c => c ≠ ':')))
  else if strStartsWith value "npm:" then
    let stripped := strDrop value 4
    match rsplitOnce '@' stripped with
    | some (name, version) =>
      if strIsEmpty name then
        match parseNpmReq "*" with
        | .ok req => .ok (.Req stripped req)
        | .error err => .error (.VersionReq err)
      else
        match parseNpmReq version with
        | .ok req => .ok (.Req name req)
        | .error err => .error (.VersionReq err)
    | none =>
      match parseNpmReq "*" with
      | .ok req => .ok (.Req stripped req)
      | .error err => .error (.VersionReq err)
  else
    match parseNpmReq value with
    | .ok req => .ok (.Req key req)
    | .error err => .error (.VersionReq err)

/-- A manifest whose `module` field is blank (whitespace only) while `main`
is non-blank, with `type` `"module"`. -/
def blank_module_manifest : PackageJson :=
  { path := "/p", main := some "x", name := none, version := none,
    module := some " ", typ := "module", types := none, exports := none,
    imports := none, bin := none, dependencies := none,
    dev_dependencies := none, scripts := none, workspaces := none }

/-- A demonstration stand-in for the external version-requirement parser:
requirement strings beginning with `%` fail to parse. -/
def demoNpmParse : String → Except String String :=
  fun s => if strStartsWith s "%" then .error s else .ok s

/-- A JSON document holding every recognized field once, in the manifest's
serialization order, with the value shapes the field mapping retains
unchanged. -/
def canonical_doc (exps imps : List (String × JValue)) (bin : JValue)
    (main module name version typ types : String)
    (deps devDeps scripts : List (String × String)) (ws : List String) :
    List (String × JValue) :=
  [("exports", .obj exps), ("imports", .obj imps), ("bin", bin),
   ("main", .str main), ("module", .str module), ("name", .str name),
   ("version", .str version), ("type", .str typ), ("types", .str types),
   ("dependencies", .obj (deps.map (fun kv => (kv.1, .str kv.2)))),
   ("devDependencies", .obj (devDeps.map (fun kv => (kv.1, .str kv.2)))),
   ("scripts", .obj (scripts.map (fun kv => (kv.1, .str kv.2)))),
   ("workspaces", .arr (ws.map .str))]

lemma beq_false_of_ne {a b : String} (h : ¬ a = b) : (a == b) = false := by
  simp [beq_iff_eq, h]

lemma jremove_fst (key : String) (m : List (String × JValue)) :
    (jremove key m).1 = m.lookup key := by
  induction m with
  | nil => rfl
  | cons kv rest ih =>
    obtain ⟨k, v⟩ := kv
    by_cases h : k = key
    · subst h
      simp [jremove, List.lookup]
    · simp [jremove, h, List.lookup, ih, beq_false_of_ne (fun he => h he.symm)]

lemma lookup_jremove_snd (k key : String) (m : List (String × JValue)) (h : k ≠ key) :
    ((jremove key m).2).lookup k = m.lookup k := by
  induction m with
  | nil => rfl
  | cons kv rest ih =>
    obtain ⟨k2, v⟩ := kv
    by_cases h2 : k2 = key
    · subst h2
      simp [jremove, List.lookup, beq_false_of_ne h]
    · by_cases h3 : k = k2
      · subst h3
        simp [jremove, h2, List.lookup]
      · simp [jremove, h2, List.lookup, ih, beq_false_of_ne h3]

set_option maxHeartbeats 2000000 in
/-- Reading the manifest builder as independent key lookups: the fourteen
recognized keys are pairwise distinct, so the sequential removals in
`load_from_value` see exactly the first entry of each recognized key of the
original object. -/
lemma load_from_value_obj (path : String) (m : List (String × JValue)) :
    load_from_value path (.obj m) =
      match exports_of_val (m.lookup "exports") with
      | .error e => .error e
      | .ok exports =>
        .ok { path := path,
              main := (m.lookup "main").bind map_string,
              name := (m.lookup "name").bind map_string,
              version := (m.lookup "version").bind map_string,
              module := (m.lookup "module").bind map_string,
              typ := type_normalize (m.lookup "type"),
              types := ((m.lookup "typings").orElse (fun _ => m.lookup "types")).bind map_string,
              exports := exports,
              imports := (m.lookup "imports").bind map_object,
              bin := m.lookup "bin",
              dependencies := (m.lookup "dependencies").bind parse_string_map,
              dev_dependencies := (m.lookup "devDependencies").bind parse_string_map,
              scripts := (m.lookup "scripts").bind parse_string_map,
              workspaces := (m.lookup "workspaces").bind parse_string_array } := by
  simp only [load_from_value, jremove_fst, lookup_jremove_snd, ne_eq, String.reduceEq,
    not_false_eq_true]
  cases htypings : List.lookup "typings" m with
  | none =>
    simp only [htypings, lookup_jremove_snd, ne_eq, String.reduceEq, not_false_eq_true]
    rfl
  | some t =>
    simp only [htypings, lookup_jremove_snd, ne_eq, String.reduceEq, not_false_eq_true]
    rfl

lemma strStartsWith_dot_not_empty {s : String} (h : strStartsWith s "." = true) :
    strIsEmpty s = false := by
  obtain ⟨l⟩ := s
  cases l with
  | nil => exact absurd h (by decide)
  | cons c cs => rfl

lemma sugar_style_false_of_dot {s : String} (h : strStartsWith s "." = true) :
    sugar_style s = false := by
  unfold sugar_style
  rw [h, strStartsWith_dot_not_empty h]
  rfl

lemma is_sugar_dot_obj {entries : List (String × JValue)}
    (h : ∀ kv ∈ entries, strStartsWith kv.1 "." = true) :
    is_conditional_exports_main_sugar (.obj entries) = .ok false := by
  cases entries with
  | nil => rfl
  | cons kv0 rest =>
    obtain ⟨k, v⟩ := kv0
    have hk : sugar_style k = false :=
      sugar_style_false_of_dot (h (k, v) (List.mem_cons_self _ _))
    have hall : rest.all (fun kv2 => sugar_style kv2.1 == false) = true := by
      rw [List.all_eq_true]
      intro kv2 hm
      rw [sugar_style_false_of_dot (h kv2 (List.mem_cons_of_mem _ hm))]
      rfl
    simp only [is_conditional_exports_main_sugar, hk, hall, if_true]

lemma normalize_exports_dot_obj {entries : List (String × JValue)}
    (h : ∀ kv ∈ entries, strStartsWith kv.1 "." = true) :
    normalize_exports (.obj entries) = .ok (some entries) := by
  simp [normalize_exports, is_sugar_dot_obj h, map_object]

lemma is_sugar_sugar_obj {k : String} {v : JValue} {rest : List (String × JValue)}
    (hk : sugar_style k = true) (h : ∀ kv ∈ rest, sugar_style kv.1 = true) :
    is_conditional_exports_main_sugar (.obj ((k, v) :: rest)) = .ok true := by
  have hall : rest.all (fun kv2 => sugar_style kv2.1 == true) = true := by
    rw [List.all_eq_true]
    intro kv2 hm
    rw [h kv2 hm]
    rfl
  simp only [is_conditional_exports_main_sugar, hk, hall, if_true]

lemma normalize_exports_sugar_obj {k : String} {v : JValue} {rest : List (String × JValue)}
    (hk : sugar_style k = true) (h : ∀ kv ∈ rest, sugar_style kv.1 = true) :
    normalize_exports (.obj ((k, v) :: rest)) = .ok (some [(".", .obj ((k, v) :: rest))]) := by
  simp [normalize_exports, is_sugar_sugar_obj hk h]

lemma lookup_append {β : Type} (l1 l2 : List (String × β)) (k : String) :
    (l1 ++ l2).lookup k = ((l1.lookup k).orElse (fun _ => l2.lookup k)) := by
  induction l1 with
  | nil => rfl
  | cons kv rest ih =>
    obtain ⟨k2, v⟩ := kv
    by_cases h : k = k2
    · subst h
      simp [List.lookup]
    · simp [List.lookup, beq_false_of_ne h, ih]

lemma get_map_go_lookup_stable {E V : Type} (parseNpmReq : String → Except E V)
    (deps : List (String × String))
    (acc : List (String × Except (PackageJsonDepValueParseError E) (PackageJsonDepValue V)))
    (k : String) (r : Except (PackageJsonDepValueParseError E) (PackageJsonDepValue V))
    (hacc : acc.lookup k = some r) :
    (get_map_go parseNpmReq deps acc).lookup k = some r := by
  induction deps generalizing acc with
  | nil => simpa [get_map_go] using hacc
  | cons kv rest ih =>
    obtain ⟨key, value⟩ := kv
    simp only [get_map_go]
    cases hl : acc.lookup key with
    | some r2 => exact ih _ hacc
    | none =>
      refine ih _ ?_
      rw [lookup_append, hacc]
      rfl

lemma get_map_go_lookup {E V : Type} (parseNpmReq : String → Except E V)
    (deps : List (String × String))
    (acc : List (String × Except (PackageJsonDepValueParseError E) (PackageJsonDepValue V)))
    (k v : String) (hacc : acc.lookup k = none) (hdeps : deps.lookup k = some v) :
    (get_map_go parseNpmReq deps acc).lookup k = some (parse_entry parseNpmReq k v) := by
  induction deps generalizing acc with
  | nil => simp [List.lookup] at hdeps
  | cons kv rest ih =>
    obtain ⟨key, value⟩ := kv
    simp only [get_map_go]
    by_cases hk : k = key
    · subst hk
      have hv : value = v := by simpa [List.lookup] using hdeps
      subst hv
      simp only [hacc]
      apply get_map_go_lookup_stable
      rw [lookup_append, hacc]
      simp [List.lookup]
    · have hdeps2 : rest.lookup k = some v := by
        simpa [List.lookup, beq_false_of_ne hk] using hdeps
      cases hl : acc.lookup key with
      | some r2 => exact ih _ hacc hdeps2
      | none =>
        refine ih _ ?_ hdeps2
        rw [lookup_append, hacc]
        simp [List.lookup, beq_false_of_ne hk]

lemma filterMap_map_str (l : List (String × String)) :
    List.filterMap (fun kv => (map_string kv.2).map (fun s => (kv.1, s)))
      (l.map (fun kv => (kv.1, JValue.str kv.2))) = l := by
  induction l with
  | nil => rfl
  | cons kv rest ih => exact congrArg (List.cons (kv.1, kv.2)) ih

lemma parse_string_map_str_entries (entries : List (String × String)) :
    parse_string_map (.obj (entries.map (fun kv => (kv.1, .str kv.2)))) = some entries :=
  congrArg some (filterMap_map_str entries)

lemma filterMap_map_string_str (l : List String) :
    List.filterMap map_string (l.map JValue.str) = l := by
  induction l with
  | nil => rfl
  | cons s rest ih => exact congrArg (List.cons s) ih

lemma parse_string_array_strs (elems : List String) :
    parse_string_array (.arr (elems.map .str)) = some elems :=
  congrArg some (filterMap_map_string_str elems)

/-- C1, counterexample: on a manifest with `type = "module"`, a `module`
field that is blank after trimming and a non-blank `main`, `main(Esm)` does
NOT fall back to the trimmed `main` field as the claim requires: the code
selects the present-but-blank `module` and returns absent. -/
theorem main_esm_blank_module_claim_false :
    ¬ (blank_module_manifest.main_entrypoint NodeModuleKind.Esm =
        if blank_module_manifest.typ = "module" ∧
            (trim_nonblank blank_module_manifest.module).isSome
        then trim_nonblank blank_module_manifest.module
        else trim_nonblank blank_module_manifest.main) := by
  decide

/-- C1, amended: `main(Esm)` on a `"module"`-typed manifest selects the
`module` field whenever it is present (falling back to `main` only when
`module` is absent), and only then trims the selected value, a blank
result being absent; in every other case, and always for `main(Cjs)`, the
result is the trimmed, non-blank `main` field. -/
theorem main_entrypoint_trims_selected_field (p : PackageJson) :
    (p.main_entrypoint NodeModuleKind.Cjs = trim_nonblank p.main) ∧
    (p.main_entrypoint NodeModuleKind.Esm =
      if p.typ = "module"
      then trim_nonblank (p.module.orElse (fun _ => p.main))
      else trim_nonblank p.main) := by
  constructor
  · cases hm : p.main <;>
      simp [PackageJson.main_entrypoint, trim_nonblank, hm]
  · by_cases ht : p.typ = "module"
    · cases hm : p.module.orElse (fun _ => p.main) <;>
        simp [PackageJson.main_entrypoint, trim_nonblank, ht, hm]
    · cases hm : p.main <;>
        simp [PackageJson.main_entrypoint, trim_nonblank, ht, hm]

/-- C3: a string or array `exports` value becomes an object keyed only by
`"."`; null, booleans and numbers yield an absent `exports`; an empty
object is kept as-is; an object whose first key is sugar-styled (empty or
not starting with `.`) with the remaining keys agreeing is wrapped as
`{".": original}`; an object whose keys all start with `.` is kept
unchanged. -/
theorem exports_normalization_cases :
    (∀ s, normalize_exports (.str s) = .ok (some [(".", .str s)])) ∧
    (∀ elems, normalize_exports (.arr elems) = .ok (some [(".", .arr elems)])) ∧
    (normalize_exports .null = .ok none) ∧
    (∀ b, normalize_exports (.bool b) = .ok none) ∧
    (∀ n, normalize_exports (.num n) = .ok none) ∧
    (normalize_exports (.obj []) = .ok (some [])) ∧
    (∀ k v rest, sugar_style k = true → (∀ kv ∈ rest, sugar_style kv.1 = true) →
      normalize_exports (.obj ((k, v) :: rest)) =
        .ok (some [(".", .obj ((k, v) :: rest))])) ∧
    (∀ entries, (∀ kv ∈ entries, strStartsWith kv.1 "." = true) →
      normalize_exports (.obj entries) = .ok (some entries)) :=
  ⟨fun _ => rfl, fun _ => rfl, rfl, fun _ => rfl, fun _ => rfl, rfl,
   fun _ _ _ hk h => normalize_exports_sugar_obj hk h,
   fun _ h => normalize_exports_dot_obj h⟩

/-- C3, witness: a condition-keyed object is wrapped under `"."` and a
subpath-keyed object is kept unchanged. -/
theorem exports_normalization_cases_witness :
    normalize_exports (.obj [("node", .str "./a.js"), ("default", .str "./b.js")]) =
      .ok (some [(".", .obj [("node", .str "./a.js"), ("default", .str "./b.js")])]) ∧
    normalize_exports (.obj [(".", .str "./m.js"), ("./foo", .str "./f.js")]) =
      .ok (some [(".", .str "./m.js"), ("./foo", .str "./f.js")]) :=
  ⟨exports_normalization_cases.2.2.2.2.2.2.1 "node" (.str "./a.js")
      [("default", .str "./b.js")] (by decide) (by decide),
   exports_normalization_cases.2.2.2.2.2.2.2
      [(".", .str "./m.js"), ("./foo", .str "./f.js")] (by decide)⟩

/-- C4: an exports object holding both a key that starts with `.` and a
key that is empty or does not start with `.` makes the sugar check halt
fatally, wherever the two keys sit and whatever else the object holds, and
building a manifest whose document carries such an exports object halts
too. -/
theorem mixed_exports_key_styles_fatal (entries : List (String × JValue))
    (kv1 kv2 : String × JValue) (h1 : kv1 ∈ entries) (h2 : kv2 ∈ entries)
    (hdot : strStartsWith kv1.1 "." = true)
    (hsugar : strIsEmpty kv2.1 = true ∨ strStartsWith kv2.1 "." = false) :
    is_conditional_exports_main_sugar (.obj entries) = .error () ∧
    ∀ path, load_from_value path (.obj [("exports", .obj entries)]) = .error () := by
  have hs1 : sugar_style kv1.1 = false := sugar_style_false_of_dot hdot
  have hs2 : sugar_style kv2.1 = true := by
    unfold sugar_style
    rcases hsugar with h | h
    · rw [h]
      rfl
    · rw [h]
      simp
  have hmain : is_conditional_exports_main_sugar (.obj entries) = .error () := by
    cases entries with
    | nil => cases h1
    | cons kv0 rest =>
      obtain ⟨k, v0⟩ := kv0
      have hfail : rest.all (fun kv => sugar_style kv.1 == sugar_style k) = false := by
        cases hk : sugar_style k with
        | true =>
          have hm : kv1 ∈ rest := by
            rcases List.mem_cons.mp h1 with he | hm
            · rw [he] at hs1
              rw [hk] at hs1
              cases hs1
            · exact hm
          rw [List.all_eq_false]
          exact ⟨kv1, hm, by simp [hs1, hk]⟩
        | false =>
          have hm : kv2 ∈ rest := by
            rcases List.mem_cons.mp h2 with he | hm
            · rw [he] at hs2
              rw [hk] at hs2
              cases hs2
            · exact hm
          rw [List.all_eq_false]
          exact ⟨kv2, hm, by simp [hs2, hk]⟩
      simp [is_conditional_exports_main_sugar, hfail]
  refine ⟨hmain, fun path => ?_⟩
  rw [load_from_value_obj]
  simp [List.lookup, exports_of_val, normalize_exports, hmain]

/-- C4, witness: the two-key mixed object from the spec's example halts the
sugar check and manifest building. -/
theorem mixed_exports_key_styles_fatal_witness :
    is_conditional_exports_main_sugar
        (.obj [(".", .str "./m.js"), ("node", .str "./f.js")]) = .error () ∧
    load_from_value "/p"
        (.obj [("exports", .obj [(".", .str "./m.js"), ("node", .str "./f.js")])]) =
      .error () :=
  ⟨(mixed_exports_key_styles_fatal _ _ _ (List.mem_cons_self _ _)
      (List.mem_cons_of_mem _ (List.mem_cons_self _ _)) (by decide) (by decide)).1,
   (mixed_exports_key_styles_fatal _ _ _ (List.mem_cons_self _ _)
      (List.mem_cons_of_mem _ (List.mem_cons_self _ _)) (by decide) (by decide)).2 "/p"⟩

/-- C2: the per-entry dependency classification of the code coincides, for
every alias, value and external version-requirement parser, with the
spec's described precedence (`workspace:` handling first, then the
unsupported schemes, then `npm:` alias splitting on the last `@`, then the
plain alias/value requirement). -/
theorem parse_entry_matches_spec {E V : Type} (parseNpmReq : String → Except E V)
    (key value : String) :
    parse_entry parseNpmReq key value = parse_entry_spec parseNpmReq key value := by
  unfold parse_entry parse_entry_spec parse_dep_entry_name_and_raw_version
  by_cases h1 : strStartsWith value "workspace:" = true
  · simp only [h1, if_true]
  · simp only [h1, if_false, Bool.false_eq_true]
    by_cases h2 : (strStartsWith value "file:" || strStartsWith value "git:" ||
        strStartsWith value "http:" || strStartsWith value "https:") = true
    · simp only [h2, if_true]
    · simp only [h2, if_false, Bool.false_eq_true]
      by_cases h3 : strStartsWith value "npm:" = true
      · simp only [h3, if_true]
        cases hr : rsplitOnce '@' (strDrop value 4) with
        | none => rfl
        | some nv =>
          obtain ⟨n, ver⟩ := nv
          by_cases h4 : strIsEmpty n = true
          · simp only [h4, if_true]
          · simp only [h4, if_false, Bool.false_eq_true]
      · simp only [h3, if_false, Bool.false_eq_true]

/-- C6: in a dependency map, each alias's classification result is exactly
the classification of its own first entry, whatever the other entries are
and whether or not any entry (including this one) fails to classify —
building the map never aborts and sibling aliases resolve independently. -/
theorem dep_parse_failure_scoped_to_alias {E V : Type}
    (parseNpmReq : String → Except E V) (deps : List (String × String))
    (k v : String) (hfirst : deps.lookup k = some v) :
    (get_map parseNpmReq (some deps)).lookup k =
      some (parse_entry parseNpmReq k v) := by
  unfold get_map
  exact get_map_go_lookup parseNpmReq deps [] k v rfl hfirst

/-- C6, witness: a malformed requirement string is recorded as a failure
for its own alias only, and the sibling alias in the same map still
resolves. -/
theorem dep_parse_failure_scoped_witness :
    (get_map demoNpmParse (some [("bad", "%*"), ("good", "1.2")])).lookup "good"
      = some (parse_entry demoNpmParse "good" "1.2") ∧
    (get_map demoNpmParse (some [("bad", "%*"), ("good", "1.2")])).lookup "bad"
      = some (parse_entry demoNpmParse "bad" "%*") ∧
    parse_entry demoNpmParse "bad" "%*" = .error (.VersionReq "%*") ∧
    parse_entry demoNpmParse "good" "1.2" = .ok (.Req "good" "1.2") :=
  ⟨dep_parse_failure_scoped_to_alias demoNpmParse _ "good" "1.2" (by decide),
   dep_parse_failure_scoped_to_alias demoNpmParse _ "bad" "%*" (by decide),
   rfl, rfl⟩

lemma load_ok_fields {path : String} {m : List (String × JValue)} {p : PackageJson}
    (hp : load_from_value path (.obj m) = .ok p) :
    p.main = (m.lookup "main").bind map_string ∧
    p.name = (m.lookup "name").bind map_string ∧
    p.version = (m.lookup "version").bind map_string ∧
    p.module = (m.lookup "module").bind map_string ∧
    p.types = ((m.lookup "typings").orElse (fun _ => m.lookup "types")).bind map_string ∧
    p.workspaces = (m.lookup "workspaces").bind parse_string_array := by
  rw [load_from_value_obj] at hp
  cases hE : exports_of_val (m.lookup "exports") with
  | error e =>
    rw [hE] at hp
    exact Except.noConfusion hp
  | ok ex =>
    rw [hE] at hp
    injection hp with h
    subst h
    exact ⟨rfl, rfl, rfl, rfl, rfl, rfl⟩

/-- C8: on any document carrying both a `typings` and a `types` key, the
manifest's `types` field is the string coercion of the `typings` value —
`typings` is consulted first, presence (not coercion success) deciding the
winner. -/
theorem typings_consulted_before_types (path : String) (m : List (String × JValue))
    (tv : JValue) (p : PackageJson)
    (h1 : m.lookup "typings" = some tv)
    (h2 : (m.lookup "types").isSome = true)
    (hp : load_from_value path (.obj m) = .ok p) :
    p.types = map_string tv := by
  rw [(load_ok_fields hp).2.2.2.2.1, h1]
  rfl

/-- C8, witness: with `typings` holding the number 1 and `types` holding a
string, the manifest's `types` is the coerced `typings` value `"1"`. -/
theorem typings_consulted_before_types_witness :
    ({ empty_package_json "/p" with types := some "1" } : PackageJson).types
      = map_string (.num 1) :=
  typings_consulted_before_types "/p" [("typings", .num 1), ("types", .str "t")]
    (.num 1) _ rfl rfl rfl

/-- C10: scalar coercion of the six string-valued manifest fields: a JSON
number value is stored as its canonical decimal rendering, while a
boolean, null, array or object value yields an absent field (for the
`types` field, through the `typings`-then-`types` preference). -/
theorem number_fields_coerced_to_decimal_string (path : String)
    (m : List (String × JValue)) (p : PackageJson) (n : Int) (v : JValue)
    (hp : load_from_value path (.obj m) = .ok p)
    (hv : match v with
          | .null => True | .bool _ => True | .arr _ => True | .obj _ => True
          | _ => False) :
    (m.lookup "name" = some (.num n) → p.name = some (toString n)) ∧
    (m.lookup "name" = some v → p.name = none) ∧
    (m.lookup "version" = some (.num n) → p.version = some (toString n)) ∧
    (m.lookup "version" = some v → p.version = none) ∧
    (m.lookup "main" = some (.num n) → p.main = some (toString n)) ∧
    (m.lookup "main" = some v → p.main = none) ∧
    (m.lookup "module" = some (.num n) → p.module = some (toString n)) ∧
    (m.lookup "module" = some v → p.module = none) ∧
    (m.lookup "typings" = some (.num n) → p.types = some (toString n)) ∧
    (m.lookup "typings" = some v → p.types = none) ∧
    (m.lookup "typings" = none → m.lookup "types" = some (.num n) →
      p.types = some (toString n)) ∧
    (m.lookup "typings" = none → m.lookup "types" = some v → p.types = none) := by
  obtain ⟨hmain, hname, hversion, hmodule, htypes, hws⟩ := load_ok_fields hp
  have hvnone : map_string v = none := by
    cases v with
    | null => rfl
    | bool b => rfl
    | arr es => rfl
    | obj es => rfl
    | num n2 => exact hv.elim
    | str s2 => exact hv.elim
  refine ⟨fun h => ?_, fun h => ?_, fun h => ?_, fun h => ?_, fun h => ?_,
    fun h => ?_, fun h => ?_, fun h => ?_, fun h => ?_, fun h => ?_,
    fun h0 h => ?_, fun h0 h => ?_⟩
  · rw [hname, h]; rfl
  · rw [hname, h]; exact hvnone
  · rw [hversion, h]; rfl
  · rw [hversion, h]; exact hvnone
  · rw [hmain, h]; rfl
  · rw [hmain, h]; exact hvnone
  · rw [hmodule, h]; rfl
  · rw [hmodule, h]; exact hvnone
  · rw [htypes, h]; rfl
  · rw [htypes, h]; exact hvnone
  · rw [htypes, h0, h]; rfl
  · rw [htypes, h0, h]; exact hvnone

/-- C10, witness: a numeric `name` is stored as `"5"`; a boolean `name` is
absent. -/
theorem number_fields_coerced_witness :
    ({ empty_package_json "/p" with name := some "5" } : PackageJson).name
      = some (toString (5 : Int)) ∧
    (empty_package_json "/p2").name = none :=
  ⟨(number_fields_coerced_to_decimal_string "/p" [("name", .num 5)] _ 5
      (.bool true) rfl trivial).1 rfl,
   (number_fields_coerced_to_decimal_string "/p2" [("name", .bool true)] _ 5
      (.bool true) rfl trivial).2.1 rfl⟩

/-- C7, counterexample: a numeric `workspaces` array element is NOT
dropped: `[5]` yields `["5"]`, not the `[]` the claim requires. -/
theorem workspaces_number_not_dropped :
    (load_from_value "/p" (.obj [("workspaces", .arr [.num 5])])).map
        (fun q => q.workspaces) = .ok (some ["5"]) ∧
    (load_from_value "/p" (.obj [("workspaces", .arr [.num 5])])).map
        (fun q => q.workspaces) ≠ .ok (some ([] : List String)) := by
  refine ⟨rfl, fun h => ?_⟩
  rw [show (load_from_value "/p" (.obj [("workspaces", .arr [.num 5])])).map
      (fun q => q.workspaces) = Except.ok (some ["5"]) from rfl] at h
  simp at h

/-- C7, amended: of a `workspaces` array, string elements are retained and
numeric elements are retained as their canonical decimal text, while all
other elements are dropped; a non-array `workspaces` value yields an
absent field. -/
theorem workspaces_retains_scalars (path : String) (m : List (String × JValue))
    (p : PackageJson) (elems : List JValue) (v : JValue)
    (hp : load_from_value path (.obj m) = .ok p)
    (hv : ∀ elems2, v ≠ .arr elems2) :
    (m.lookup "workspaces" = some (.arr elems) →
      p.workspaces = some (elems.filterMap map_string)) ∧
    (m.lookup "workspaces" = some v → p.workspaces = none) := by
  have hws := (load_ok_fields hp).2.2.2.2.2
  constructor
  · intro h
    rw [hws, h]
    rfl
  · intro h
    rw [hws, h]
    cases v with
    | arr es => exact absurd rfl (hv es)
    | null => rfl
    | bool b => rfl
    | num n2 => rfl
    | str s2 => rfl
    | obj es => rfl

/-- C7, witness: `workspaces` `[5, "a"]` yields `["5", "a"]`; a string
`workspaces` value yields an absent field. -/
theorem workspaces_retains_scalars_witness :
    ({ empty_package_json "/p" with
        workspaces := some ["5", "a"] } : PackageJson).workspaces = some ["5", "a"] ∧
    (empty_package_json "/p2").workspaces = none :=
  ⟨(workspaces_retains_scalars "/p" [("workspaces", .arr [.num 5, .str "a"])]
      _ [.num 5, .str "a"] (.str "w") rfl (fun _ h => nomatch h)).1 rfl,
   (workspaces_retains_scalars "/p2" [("workspaces", .str "w")]
      _ [] (.str "w") rfl (fun _ h => nomatch h)).2 rfl⟩

/-- C9: blank (empty or whitespace-only) source text builds an all-default
manifest with `type` `"none"` rather than failing, and a non-object
top-level JSON value builds exactly what the empty object builds — the
all-default manifest. -/
theorem blank_source_and_non_object_defaults
    (parseJson : String → Option JValue) (path source : String)
    (hblank : strIsEmpty (strTrim source) = true) :
    load_from_string parseJson path source = .ok (empty_package_json path) ∧
    (∀ v : JValue, (∀ entries, v ≠ .obj entries) →
      load_from_value path v = load_from_value path (.obj [])) ∧
    load_from_value path (.obj []) = .ok (empty_package_json path) := by
  refine ⟨?_, ?_, rfl⟩
  · simp [load_from_string, hblank]
  · intro v hv
    cases v with
    | obj entries => exact absurd rfl (hv entries)
    | null => rfl
    | bool b => rfl
    | num n => rfl
    | str s => rfl
    | arr es => rfl

/-- C9, witness: whitespace-only source text loads as the all-default
manifest, and a string top-level value behaves as the empty object. -/
theorem blank_source_and_non_object_defaults_witness :
    load_from_string (fun _ => none) "/p" "  " = .ok (empty_package_json "/p") ∧
    load_from_value "/p" (.str "x") = load_from_value "/p" (.obj []) :=
  ⟨(blank_source_and_non_object_defaults (fun _ => none) "/p" "  " (by decide)).1,
   (blank_source_and_non_object_defaults (fun _ => none) "/p" "  " (by decide)).2.1
     (.str "x") (fun _ h => nomatch h)⟩

/-- C5, counterexample: the empty document (all of whose keys — there are
none — are recognized) does not round-trip: serialization emits all
thirteen serialized fields, absent options as `null` and `type` as
`"none"`, instead of reproducing the empty document. -/
theorem serialize_empty_doc_not_roundtrip :
    (load_from_value "/p" (JValue.obj [])).map serialize ≠
      Except.ok ([] : List (String × JValue)) := by
  intro h
  rw [show (load_from_value "/p" (JValue.obj [])).map serialize =
      Except.ok [("exports", JValue.null), ("imports", JValue.null),
        ("bin", JValue.null), ("main", JValue.null), ("module", JValue.null),
        ("name", JValue.null), ("version", JValue.null),
        ("type", JValue.str "none"), ("types", JValue.null),
        ("dependencies", JValue.null), ("devDependencies", JValue.null),
        ("scripts", JValue.null), ("workspaces", JValue.null)] from rfl] at h
  exact absurd (Except.ok.inj h) (by simp)

/-- C5, amended: a document holding exactly the recognized serialized keys
once each, in serialization order, with the value shapes the mapping keeps
unchanged (an exports object whose keys all start with `.`, an imports
object, any `bin` value, string `main`/`module`/`name`/`version`/`types`,
`type` either `"module"` or `"commonjs"`, all-string dependency,
devDependency and script maps, an all-string workspaces array, and no
`typings` key) round-trips: serializing the built manifest reproduces the
document's key order and values. -/
theorem serialize_roundtrip_canonical_doc (path : String)
    (exps imps : List (String × JValue)) (bin : JValue)
    (main module name version typ types : String)
    (deps devDeps scripts : List (String × String)) (ws : List String)
    (htyp : typ = "module" ∨ typ = "commonjs")
    (hexp : ∀ kv ∈ exps, strStartsWith kv.1 "." = true) :
    (load_from_value path
        (.obj (canonical_doc exps imps bin main module name version typ types
          deps devDeps scripts ws))).map serialize =
      .ok (canonical_doc exps imps bin main module name version typ types
        deps devDeps scripts ws) := by
  rw [load_from_value_obj]
  have hnorm : exports_of_val
      ((canonical_doc exps imps bin main module name version typ types
        deps devDeps scripts ws).lookup "exports") = .ok (some exps) := by
    rw [show (canonical_doc exps imps bin main module name version typ types
        deps devDeps scripts ws).lookup "exports" = some (.obj exps) from rfl]
    exact normalize_exports_dot_obj hexp
  rw [hnorm]
  have htypv : type_normalize (some (.str typ)) = typ := by
    rcases htyp with rfl | rfl <;> rfl
  simp only [Except.map, canonical_doc, List.lookup, serialize, htypv,
    serialize_opt_obj, serialize_opt_str, serialize_opt_str_map,
    serialize_opt_str_list, map_string, map_object, Option.bind,
    parse_string_map_str_entries, parse_string_array_strs, String.reduceBEq]
  rfl

/-- C5, witness: a full document in the shape of the repository's
serialization test (all recognized fields present, subpath-keyed exports)
round-trips through serialization. -/
theorem serialize_roundtrip_canonical_doc_witness :
    (load_from_value "/package.json"
        (.obj (canonical_doc [(".", .str "./main.js")] [("#test", .str "./main.js")]
          (.str "./main.js") "./main.js" "./module.js" "test" "1" "module"
          "./types.d.ts" [("name", "1.2")] [("name", "1.2")]
          [("test", "echo test")] ["asdf", "asdf2"]))).map serialize =
      .ok (canonical_doc [(".", .str "./main.js")] [("#test", .str "./main.js")]
          (.str "./main.js") "./main.js" "./module.js" "test" "1" "module"
          "./types.d.ts" [("name", "1.2")] [("name", "1.2")]
          [("test", "echo test")] ["asdf", "asdf2"]) :=
  serialize_roundtrip_canonical_doc "/package.json"
    [(".", .str "./main.js")] [("#test", .str "./main.js")]
    (.str "./main.js") "./main.js" "./module.js" "test" "1" "module"
    "./types.d.ts" [("name", "1.2")] [("name", "1.2")]
    [("test", "echo test")] ["asdf", "asdf2"]
    (Or.inl rfl) (by decide)

/-- C1, witness: on the blank-`module` manifest, `main(Cjs)` is the
trimmed `main` and `main(Esm)` is absent. -/
theorem main_entrypoint_trims_selected_field_witness :
    blank_module_manifest.main_entrypoint NodeModuleKind.Cjs = some "x" ∧
    blank_module_manifest.main_entrypoint NodeModuleKind.Esm = none :=
  ⟨(main_entrypoint_trims_selected_field blank_module_manifest).1,
   (main_entrypoint_trims_selected_field blank_module_manifest).2⟩

/-- C2, witness: the code's classification and the spec's classification
agree on an npm-alias entry. -/
theorem parse_entry_matches_spec_witness :
    parse_entry demoNpmParse "other" "npm:package@~1.3" =
      parse_entry_spec demoNpmParse "other" "npm:package@~1.3" :=
  parse_entry_matches_spec demoNpmParse "other" "npm:package@~1.3"

end DenoPackageJson
